import Mathlib

/-!
Verification development for the `plex-ws` notification transport and
playing-event processor.

The development shallowly embeds the two source files:

* the `PlexSocket` transport (connection lifecycle, heartbeat timers,
  reconnect policy, message parsing and classification), and
* the `PlayingNode` processor (session resolution, dedup by `prevState`,
  the filter engine, and session pruning on `stopped`).

JavaScript runtime values are modelled by `PlexWs.JSVal`.  Numbers are
modelled as `Option Int`: `none` is the not-a-number value `NaN`, and the
numeric domain is restricted to integers (claims under study depend only on
integer arithmetic and on `NaN` propagation, never on floating-point
rounding).  Object property access on `undefined`/`null` is a thrown
`TypeError`, modelled with `Except Unit`.  References: `===`/`==` compare
objects by reference; every object comparison performed by this code base
compares values originating from distinct allocations (different parsed
frames, config vs. session data), so reference equality of two compound
values is modelled as `false`.
-/

namespace PlexWs

/-- A JavaScript runtime value (the fragment these two modules manipulate). -/
inductive JSVal where
  | undef : JSVal
  | null : JSVal
  | bool : Bool → JSVal
  | num : Option Int → JSVal
  | str : String → JSVal
  | arr : List JSVal → JSVal
  | obj : List (String × JSVal) → JSVal

mutual

/-- `String(v)` — the default JavaScript string conversion.  Plain objects
stringify as the `[object Object]` tag; arrays join their elements with
commas, with `null`/`undefined` elements contributing the empty string. -/
def jsToString : JSVal → String
  | .undef => ("undefined")
  | .null => ("null")
  | .bool true => ("true")
  | .bool false => ("false")
  | .num none => ("NaN")
  | .num (some n) => toString n
  | .str s => s
  | .obj _ => ("[object Object]")
  | .arr xs => String.intercalate (",") (jsArrParts xs)

/-- Stringification of array elements (`Array.prototype.join`):
`null` and `undefined` become empty strings. -/
def jsArrParts : List JSVal → List String
  | [] => []
  | .null :: rest => ("") :: jsArrParts rest
  | .undef :: rest => ("") :: jsArrParts rest
  | v :: rest => jsToString v :: jsArrParts rest

end

/-- Drop leading whitespace characters. -/
def dropLeadingWs : List Char → List Char
  | [] => []
  | c :: rest => if c.isWhitespace then dropLeadingWs rest else c :: rest

/-- Trim whitespace from both ends of a character list. -/
def trimChars (cs : List Char) : List Char :=
  dropLeadingWs ((dropLeadingWs cs.reverse).reverse)

/-- Accumulate a decimal digit string into a natural number; any
non-digit character fails. -/
def digitsValAux : Nat → List Char → Option Nat
  | acc, [] => some acc
  | acc, c :: rest =>
    if c.isDigit then digitsValAux (acc * 10 + (c.toNat - ('0').toNat)) rest
    else none

/-- Value of a non-empty decimal digit string. -/
def digitsVal : List Char → Option Nat
  | [] => none
  | c :: rest => digitsValAux 0 (c :: rest)

/-- `ToNumber` on a string: trimmed empty string is `0`; an optional sign
followed by decimal digits is that integer; anything else is `NaN`
(fractional and exotic literals lie outside the modelled integer domain). -/
def parseNum (s : String) : Option Int :=
  match trimChars s.data with
  | [] => some 0
  | c :: rest =>
    if c = '-' then (digitsVal rest).map (fun n => -(n : Int))
    else if c = '+' then (digitsVal rest).map (fun n => (n : Int))
    else (digitsVal (c :: rest)).map (fun n => (n : Int))

/-- `Number(v)` — the default JavaScript numeric conversion.  Compound
values convert through their string form. -/
def jsToNumber : JSVal → Option Int
  | .undef => none
  | .null => some 0
  | .bool b => some (if b then 1 else 0)
  | .num n => n
  | .str s => parseNum s
  | .arr xs => parseNum (jsToString (.arr xs))
  | .obj fs => parseNum (jsToString (.obj fs))

/-- JavaScript truthiness (`Boolean(v)` / an `if (v)` test). -/
def jsTruthy : JSVal → Bool
  | .undef => false
  | .null => false
  | .bool b => b
  | .num none => false
  | .num (some n) => n != 0
  | .str s => s != ("")
  | .arr _ => true
  | .obj _ => true

/-- Number equality as used by `==`/`===` on numbers: `NaN` is equal to
nothing, including itself. -/
def numEq : Option Int → Option Int → Bool
  | some x, some y => x == y
  | _, _ => false

/-- `ToNumber` of a boolean. -/
def boolToNum (b : Bool) : Option Int := some (if b then 1 else 0)

/-- JavaScript loose equality `==` (ES abstract equality) on the modelled
domain.  Booleans convert to numbers; a number or string meeting a compound
value compares against the compound value's primitive (string) form; two
compound values compare by reference, which is `false` for values of
distinct allocations (the only case arising here). -/
def jsLooseEq : JSVal → JSVal → Bool
  | .undef, .undef => true
  | .undef, .null => true
  | .null, .undef => true
  | .null, .null => true
  | .num a, .num b => numEq a b
  | .str a, .str b => a == b
  | .bool a, .bool b => a == b
  | .num a, .str s => numEq a (parseNum s)
  | .str s, .num b => numEq (parseNum s) b
  | .bool a, .num b => numEq (boolToNum a) b
  | .num a, .bool b => numEq a (boolToNum b)
  | .bool a, .str s => numEq (boolToNum a) (parseNum s)
  | .str s, .bool b => numEq (parseNum s) (boolToNum b)
  | .num a, .obj o => numEq a (parseNum (jsToString (.obj o)))
  | .num a, .arr o => numEq a (parseNum (jsToString (.arr o)))
  | .obj o, .num b => numEq (parseNum (jsToString (.obj o))) b
  | .arr o, .num b => numEq (parseNum (jsToString (.arr o))) b
  | .str s, .obj o => s == jsToString (.obj o)
  | .str s, .arr o => s == jsToString (.arr o)
  | .obj o, .str s => jsToString (.obj o) == s
  | .arr o, .str s => jsToString (.arr o) == s
  | .bool a, .obj o => numEq (boolToNum a) (parseNum (jsToString (.obj o)))
  | .bool a, .arr o => numEq (boolToNum a) (parseNum (jsToString (.arr o)))
  | .obj o, .bool b => numEq (parseNum (jsToString (.obj o))) (boolToNum b)
  | .arr o, .bool b => numEq (parseNum (jsToString (.arr o))) (boolToNum b)
  | _, _ => false

/-- JavaScript strict equality `===`.  Values of different type tags are
never equal; `NaN === NaN` is false; compound values compare by reference
(distinct allocations here, hence `false`). -/
def jsStrictEq : JSVal → JSVal → Bool
  | .undef, .undef => true
  | .null, .null => true
  | .bool a, .bool b => a == b
  | .num a, .num b => numEq a b
  | .str a, .str b => a == b
  | _, _ => false

/-- `ToPrimitive` with number hint: plain objects and arrays have no
useful `valueOf`, so they fall back to their string form. -/
def toPrimNum : JSVal → JSVal
  | .obj o => .str (jsToString (.obj o))
  | .arr o => .str (jsToString (.arr o))
  | v => v

/-- JavaScript `<`: if both primitives are strings, lexicographic string
comparison; otherwise numeric comparison with `NaN` making the result
false. -/
def jsLt (a b : JSVal) : Bool :=
  match toPrimNum a, toPrimNum b with
  | .str x, .str y => decide (x < y)
  | pa, pb =>
    match jsToNumber pa, jsToNumber pb with
    | some x, some y => decide (x < y)
    | _, _ => false

/-- JavaScript `<=`: string case lexicographic; otherwise numeric with
`NaN` making the result false. -/
def jsLe (a b : JSVal) : Bool :=
  match toPrimNum a, toPrimNum b with
  | .str x, .str y => decide (x ≤ y)
  | pa, pb =>
    match jsToNumber pa, jsToNumber pb with
    | some x, some y => decide (x ≤ y)
    | _, _ => false

/-- Property read `v[k]`.  Reading a property of `undefined` or `null`
throws a `TypeError` (the `Except.error` case); primitives box and expose
`length` on strings; objects look the key up, missing keys give
`undefined`. -/
def getProp : JSVal → String → Except Unit JSVal
  | .undef, _ => .error ()
  | .null, _ => .error ()
  | .obj fields, k => .ok (((fields.lookup k).getD .undef))
  | .str s, k => .ok (if k = ("length") then .num (some (s.length : Int)) else .undef)
  | .arr xs, k => .ok (if k = ("length") then .num (some (xs.length : Int)) else .undef)
  | .bool _, _ => .ok (.undef)
  | .num _, _ => .ok (.undef)

/-- `key.split('.')` on the character list: splitting on `.` always
yields at least one (possibly empty) part. -/
def splitDotChars : List Char → List (List Char)
  | [] => [[]]
  | c :: rest =>
    let parts := splitDotChars rest
    if c = '.' then [] :: parts
    else
      match parts with
      | [] => [[c]]
      | p :: ps => (c :: p) :: ps

/-- `key.split('.')` (playing.js 34). -/
def splitOnDot (s : String) : List String :=
  (splitDotChars s.data).map (fun cs => String.mk cs)

/-- Assoc-list update used by property assignment. -/
def setField : List (String × JSVal) → String → JSVal → List (String × JSVal)
  | [], k, w => [(k, w)]
  | (k0, v0) :: rest, k, w =>
    if k0 = k then (k0, w) :: rest else (k0, v0) :: setField rest k w

/-- Property write `v[k] = w`.  On objects the field is updated or added;
on any other value the non-strict-mode assignment silently does nothing. -/
def setProp (v : JSVal) (k : String) (w : JSVal) : JSVal :=
  match v with
  | .obj fields => .obj (setField fields k w)
  | other => other

/-! ## FilterEngine (`PlayingNode.matchesFilters`, src/nodes/playing.js 26–71) -/

/-- `filter.valueType`: the coercion selector of a filter specification.
`vdefault` is any other configured value (no coercion is applied). -/
inductive VType where
  | vstr : VType
  | vnum : VType
  | vbool : VType
  | vdefault : VType
deriving DecidableEq

/-- `filter.operator`: the six comparison operators the switch recognises. -/
inductive Op where
  | eq : Op
  | neq : Op
  | lt : Op
  | lte : Op
  | gt : Op
  | gte : Op
deriving DecidableEq

/-- One filter specification from the node configuration. -/
structure Filter where
  key : String
  value : JSVal
  valueType : VType
  operator : Op
  idx : Int

/-- The coercion switch (playing.js 39–54): both the filter's literal value
and the session's resolved value are converted according to `valueType`. -/
def coerceVals (vt : VType) (filterValue sessionValue : JSVal) : JSVal × JSVal :=
  match vt with
  | .vstr => (.str (jsToString filterValue), .str (jsToString sessionValue))
  | .vnum => (.num (jsToNumber filterValue), .num (jsToNumber sessionValue))
  | .vbool => (.bool (jsTruthy filterValue), .bool (jsTruthy sessionValue))
  | .vdefault => (filterValue, sessionValue)

/-- The operator switch (playing.js 56–63): the filter's (coerced) literal
value is the left operand, the session's (coerced) resolved value the
right operand. -/
def applyOp : Op → JSVal → JSVal → Bool
  | .eq, f, s => jsLooseEq f s
  | .neq, f, s => !(jsLooseEq f s)
  | .lt, f, s => jsLt f s
  | .lte, f, s => jsLe f s
  | .gt, f, s => jsLt s f
  | .gte, f, s => jsLe s f

/-- Coercion plus comparison (playing.js 39–63) applied to the already
path-resolved session value. -/
def applyFilter (f : Filter) (resolved : JSVal) : Bool :=
  let (fv, sv) := coerceVals f.valueType f.value resolved
  applyOp f.operator fv sv

/-- The dot-path walk (playing.js 34–37): `keyParts.forEach(key =>
sessionValue = sessionValue[key])`.  Stepping through `undefined` or
`null` throws. -/
def resolvePath (session : JSVal) (keyParts : List String) : Except Unit JSVal :=
  keyParts.foldlM getProp session

/-- Evaluation of a single filter against a session: resolve the dot-path,
then coerce and compare. -/
def evalFilter (session : JSVal) (f : Filter) : Except Unit Bool := do
  let resolved ← resolvePath session (splitOnDot f.key)
  pure (applyFilter f resolved)

/-- `matchesFilters` (playing.js 26–71): `match` starts `true` and each
filter's comparison is ANDed in via `forEach`; a `TypeError` thrown while
resolving a path aborts the whole evaluation. -/
def matchesFilters (filters : List Filter) (session : JSVal) : Except Unit Bool :=
  filters.foldlM
    (fun m f => do
      let c ← evalFilter session f
      pure (m && c))
    true

/-- Stable insertion used to model the constructor's
`filters.sort((a, b) => a.idx > b.idx ? 1 : a.idx < b.idx ? -1 : 0)`. -/
def insertFilter (f : Filter) : List Filter → List Filter
  | [] => [f]
  | g :: rest => if g.idx ≤ f.idx then g :: insertFilter f rest else f :: g :: rest

/-- Ascending-`idx` stable sort applied to the configured filters in the
`PlayingNode` constructor (playing.js 8–9). -/
def sortFilters (fs : List Filter) : List Filter :=
  fs.foldl (fun acc f => insertFilter f acc) []

/-- The node's matcher as actually invoked: the configured filter list is
sorted by `idx` at construction and `matchesFilters` runs over the sorted
list. -/
def matchesNode (config : List Filter) (session : JSVal) : Except Unit Bool :=
  matchesFilters (sortFilters config) session

/-- Path resolution as the specification words it: a missing (or
`undefined`/`null`) intermediate yields `undefined` and resolution
continues, never throwing. -/
def getPropSpec (v : JSVal) (k : String) : JSVal :=
  match getProp v k with
  | .ok w => w
  | .error _ => (.undef)

/-- Total dot-path resolution following the specification's wording. -/
def resolvePathSpec (session : JSVal) (keyParts : List String) : JSVal :=
  keyParts.foldl getPropSpec session

/-- The claim's statement of the filter engine, rendered literally: the
conjunction, over all filters in ascending `idx` order, of the operator
applied with the filter's literal value on the left and the session's
path-resolved value on the right (with the `valueType` coercions of the
algorithm). -/
def matchesSpec (config : List Filter) (session : JSVal) : Bool :=
  (sortFilters config).all
    (fun f => applyFilter f (resolvePathSpec session (splitOnDot f.key)))

/-! ## PlayingStreamProcessor (`PlayingNode.begin`, src/nodes/playing.js 73–100) -/

/-- Observable outcome of one `playing` event reaching the node:
downstream messages sent (`{payload, plex, session}` triples), whether the
fetch-failure warning path ran, the session keys passed to
`sessions.delete`, and the session record after any `prevState`
mutation. -/
structure POut where
  sent : List (JSVal × JSVal × JSVal)
  warned : Bool
  deleted : List JSVal
  sessionAfter : JSVal

/-- The body of the `fetch(...).then(session => ...)` continuation
(playing.js 78–95).  The only throw point is `matchesFilters` (a dot-path
through `undefined`/`null`); a throw aborts the body before the
`prevState` update and before the `stopped` deletion. -/
def processSession (filters : List Filter) (state notif session sessionKey : JSVal) :
    Except Unit POut := do
  let cond ←
    (if jsTruthy session then do
        let p ← getProp session ("prevState")
        pure (!(jsStrictEq p state))
     else pure false)
  let (sent, session2) ←
    (if cond then do
        let m ← matchesFilters filters session
        pure ((if m then [(state, notif, session)] else []),
              setProp session ("prevState") state)
     else pure (([] : List (JSVal × JSVal × JSVal)), session))
  let deleted := if jsStrictEq state (.str ("stopped")) then [sessionKey] else []
  pure { sent := sent, warned := false, deleted := deleted, sessionAfter := session2 }

/-- One `playing(state, notification)` event handled by the node
(playing.js 73–100).  `fetched` is the settled result of
`sessions.fetch(sessionKey)`; a rejected fetch, or a `TypeError` escaping
the `then` body, lands in the `.catch` which only warns.  The outer
`Except` is the synchronous throw of `notification['sessionKey']` on a
`null`/`undefined` notification. -/
def handlePlaying (filters : List Filter) (state notif : JSVal)
    (fetched : Except String JSVal) : Except Unit POut := do
  let sessionKey ← getProp notif ("sessionKey")
  match fetched with
  | .error _ =>
    pure { sent := [], warned := true, deleted := [], sessionAfter := JSVal.undef }
  | .ok session =>
    match processSession filters state notif session sessionKey with
    | .ok out => pure out
    | .error _ =>
      pure { sent := [], warned := true, deleted := [], sessionAfter := session }

/-! ## NotificationTransport: message parsing and classification
(`PlexSocket.parseData/onMessage/onNotification/onPlaying`,
src/unnamed/part_000 lines 6–8 and 78–172) -/

/-- Events the transport emits. -/
inductive TEv where
  | opened : TEv
  | close : TEv
  | pong : TEv
  | pongTimeout : TEv
  | reconnectMaxRetries : TEv
  | unauthorized : TEv
  | error : TEv
  | message : JSVal → TEv
  | notification : JSVal → TEv
  | playing : JSVal → JSVal → TEv

/-- `parseData` (part_000 78–84).  `parsed` is the result of
`JSON.parse(data)` (`none` = it threw).  On a parse failure the handler
runs `return this.emit('error', err)`: when an `error` listener is
attached, `emit` delivers the event and returns the boolean `true`, which
becomes `parseData`'s return value; with no listener, `emit('error')`
throws the error instead (`none` value, nothing delivered). -/
def parseDataFn (parsed : Option JSVal) (hasErrorListener : Bool) :
    List TEv × Option JSVal :=
  match parsed with
  | some v => ([], some v)
  | none =>
    if hasErrorListener then ([TEv.error], some (JSVal.bool true))
    else ([], none)

/-- The helper `notification(payload)` (part_000 6–8):
`!!payload && payload['NotificationContainer']`.  The payload is known
truthy at every call site reaching the property access, so the access
cannot throw. -/
def notificationFn (payload : JSVal) : Except Unit JSVal :=
  if jsTruthy payload then getProp payload ("NotificationContainer")
  else pure (JSVal.bool false)

/-- The `forEach` over `PlaySessionStateNotification` entries
(part_000 166–168): each entry emits `playing(entry.state, entry)`;
reading `.state` of a `null`/`undefined` entry throws, keeping the events
already emitted. -/
def emitEntries : List JSVal → List TEv × Bool
  | [] => ([], false)
  | entry :: rest =>
    match getProp entry ("state") with
    | .error _ => ([], true)
    | .ok st =>
      let (evs, threw) := emitEntries rest
      (TEv.playing st entry :: evs, threw)

/-- `onPlaying` (part_000 162–172).  The guard is
`payload && payload.length`; when it passes, `payload.forEach` is a
`TypeError` unless the payload is an array.  The boolean component records
whether a `TypeError` escaped. -/
def onPlayingFn (notif : JSVal) : List TEv × Bool :=
  match getProp notif ("PlaySessionStateNotification") with
  | .error _ => ([], true)
  | .ok payload =>
    let lenCheck : Option Bool :=
      if jsTruthy payload then
        match getProp payload ("length") with
        | .ok len => some (jsTruthy len)
        | .error _ => none
      else some false
    match lenCheck with
    | none => ([], true)
    | some cond =>
      if cond then
        match payload with
        | .arr entries => emitEntries entries
        | _ => ([], true)
      else ([TEv.error], false)

/-- `onNotification` (part_000 152–160): emit `notification`, then
dispatch on `notif.type === 'playing'` (a `switch` compares strictly). -/
def onNotificationFn (notif : JSVal) : List TEv × Bool :=
  match getProp notif ("type") with
  | .error _ => ([TEv.notification notif], true)
  | .ok t =>
    if jsStrictEq t (.str ("playing")) then
      let (evs, threw) := onPlayingFn notif
      (TEv.notification notif :: evs, threw)
    else ([TEv.notification notif], false)

/-- `onMessage` (part_000 141–150): parse, and if the returned payload is
truthy emit `message` with it, then extract and dispatch the notification
container.  The boolean component records whether an exception escaped the
handler. -/
def onMessageFn (parsed : Option JSVal) (hasErrorListener : Bool) :
    List TEv × Bool :=
  match parseDataFn parsed hasErrorListener with
  | (pre, none) => (pre, true)
  | (pre, some payload) =>
    if jsTruthy payload then
      let evs1 := pre ++ [TEv.message payload]
      match notificationFn payload with
      | .error _ => (evs1, true)
      | .ok nv =>
        if jsTruthy nv then
          let (evs2, threw) := onNotificationFn nv
          (evs1 ++ evs2, threw)
        else (evs1, false)
    else (pre, false)

/-! ## NotificationTransport: connection lifecycle, heartbeat and
reconnection (`PlexSocket`, src/unnamed/part_000 lines 10–139) -/

/-- `WebSocket.readyState` of the most recently constructed socket. -/
inductive RS where
  | connecting : RS
  | opened : RS
  | closing : RS
  | closed : RS
deriving DecidableEq

/-- Kinds of timers the transport arms with `setTimeout`. -/
inductive TKind where
  | pingerT : TKind
  | awaitPongT : TKind
  | reconnectT : TKind
deriving DecidableEq

/-- A live (armed, not yet fired or cleared) `setTimeout` timer. -/
structure Timer where
  id : Nat
  kind : TKind
  delay : Nat
deriving DecidableEq

/-- Transport configuration (constructor options; `maxRetries = none`
models the default `reconnectMaxRetries = Infinity`). -/
structure Cfg where
  pingInterval : Nat
  pingTimeout : Nat
  reconnectInterval : Nat
  maxRetries : Option Nat

/-- The mutable state of a `PlexSocket` plus its environment's live
timers.  `socketRef` is whether `this.socket` is non-null; `wsState` is
the `readyState` of the most recently constructed underlying socket
(`none` before any `connect()`); `pinger`/`awaitPong` hold the timer ids
stored in the corresponding fields (possibly stale: the source never nulls
them on fire, and `onPong` clears without nulling); `timers` are the
armed timers; `crashed` marks an uncaught synchronous `TypeError`
(e.g. `this.socket.terminate()` or `this.socket.close()` on `null`). -/
structure PS where
  shouldClose : Bool
  retries : Nat
  socketRef : Bool
  wsState : Option RS
  pinger : Option Nat
  awaitPong : Option Nat
  timers : List Timer
  nextId : Nat
  crashed : Bool
deriving DecidableEq

/-- `isReady` (part_000 86–88):
`this.socket && this.socket.readyState === WebSocket.OPEN &&
!this.shouldClose`. -/
def isReady (s : PS) : Bool :=
  s.socketRef
    && (match s.wsState with | some RS.opened => true | _ => false)
    && !s.shouldClose

/-- `ping()` (part_000 90–98): when ready, send a ping frame and arm the
pong-deadline timer, storing its handle in `awaitPong`. -/
def pingFn (cfg : Cfg) (s : PS) : PS × List TEv :=
  if isReady s then
    ({ s with awaitPong := some s.nextId,
              timers := s.timers ++ [⟨s.nextId, .awaitPongT, cfg.pingTimeout⟩],
              nextId := s.nextId + 1 }, [])
  else (s, [])

/-- Has the retry counter reached the configured ceiling?
(`this.retries++ >= this.reconnectMaxRetries`, pre-increment value;
`Infinity` is never reached.) -/
def reachedMax (max : Option Nat) (retries : Nat) : Bool :=
  match max with
  | none => false
  | some m => decide (m ≤ retries)

/-- `connect()` (part_000 50–70): post-increment the retry counter,
emitting `reconnect-max-retries` when the pre-increment value has reached
the ceiling, then construct a fresh socket (handler registration is
implicit in the step relation; the synchronous-construction-failure path
is not exercised here). -/
def connectFn (cfg : Cfg) (s : PS) : PS × List TEv :=
  let evs := if reachedMax cfg.maxRetries s.retries then [TEv.reconnectMaxRetries] else []
  ({ s with retries := s.retries + 1,
            socketRef := true,
            wsState := some RS.connecting }, evs)

/-- `close()` (part_000 72–76): set the intentional-close flag, close the
socket, null the reference.  `this.socket.close()` on a null reference is
an uncaught `TypeError`. -/
def closeFn (s : PS) : PS × List TEv :=
  if s.socketRef then
    ({ s with shouldClose := true,
              wsState := some (match s.wsState with
                               | some RS.closed => RS.closed
                               | _ => RS.closing),
              socketRef := false }, [])
  else ({ s with crashed := true }, [])

/-- `clearTimeout` on the timer id held in a field (`none` = field is
null, nothing to clear). -/
def clearField (timers : List Timer) : Option Nat → List Timer
  | some id => timers.filter (fun t => t.id != id)
  | none => timers

/-- `onOpen` (part_000 100–104): reset the retry counter, emit `open`,
start the heartbeat with an immediate ping. -/
def onOpenFn (cfg : Cfg) (s : PS) : PS × List TEv :=
  ((pingFn cfg { s with retries := 0 }).1,
   TEv.opened :: (pingFn cfg { s with retries := 0 }).2)

/-- `onClose` (part_000 106–122): clear both heartbeat timers (nulling the
fields), then either schedule exactly one reconnect after
`reconnectInterval` (unintentional close) or emit `close` (intentional). -/
def onCloseFn (cfg : Cfg) (s : PS) : PS × List TEv :=
  let s1 := { s with timers := clearField s.timers s.pinger, pinger := none }
  let s2 := { s1 with timers := clearField s1.timers s1.awaitPong, awaitPong := none }
  if !s2.shouldClose then
    ({ s2 with timers := s2.timers ++ [⟨s2.nextId, .reconnectT, cfg.reconnectInterval⟩],
               nextId := s2.nextId + 1 }, [])
  else (s2, [TEv.close])

/-- `onPong` (part_000 132–139): clear the pending pong-deadline timer if
the field holds one (the field itself is left stale), then arm a fresh
ping timer unconditionally and emit `pong`. -/
def onPongFn (cfg : Cfg) (s : PS) : PS × List TEv :=
  let s1 :=
    match s.awaitPong with
    | some id => { s with timers := s.timers.filter (fun t => t.id != id) }
    | none => s
  ({ s1 with pinger := some s1.nextId,
             timers := s1.timers ++ [⟨s1.nextId, .pingerT, cfg.pingInterval⟩],
             nextId := s1.nextId + 1 }, [TEv.pong])

/-- Environment events driving a `PlexSocket`: socket lifecycle callbacks,
frames from the peer, the user's `close()` call, and a timer firing. -/
inductive SStep where
  | openEv : SStep
  | closeEv : SStep
  | pongEv : SStep
  | pingEv : SStep
  | userClose : SStep
  | fire : Nat → SStep

/-- One environment step: `none` when the event is not enabled in the
current state.  `openEv` fires only on a connecting socket; `closeEv` once
per socket; `pongEv`/`pingEv` only while the socket is open; a timer fires
only while armed.  A firing pong-deadline timer emits `pong-timeout` and
terminates the socket — a `TypeError` (crash) when `close()` already
nulled the reference. -/
def step (cfg : Cfg) (s : PS) : SStep → Option (PS × List TEv)
  | .openEv =>
    if s.crashed then none
    else
      match s.wsState with
      | some RS.connecting => some (onOpenFn cfg { s with wsState := some RS.opened })
      | _ => none
  | .closeEv =>
    if s.crashed then none
    else
      match s.wsState with
      | some RS.closed => none
      | none => none
      | some _ => some (onCloseFn cfg { s with wsState := some RS.closed })
  | .pongEv =>
    if s.crashed then none
    else
      match s.wsState with
      | some RS.opened => some (onPongFn cfg s)
      | _ => none
  | .pingEv =>
    if s.crashed then none
    else
      match s.wsState with
      | some RS.opened => some (s, [])
      | _ => none
  | .userClose => if s.crashed then none else some (closeFn s)
  | .fire id =>
    if s.crashed then none
    else
      match s.timers.find? (fun t => t.id == id) with
      | none => none
      | some t =>
        match t.kind with
        | .pingerT =>
          some (pingFn cfg { s with timers := s.timers.filter (fun u => u.id != id) })
        | .awaitPongT =>
          if s.socketRef then
            some ({ s with timers := s.timers.filter (fun u => u.id != id),
                           wsState := some (match s.wsState with
                                            | some RS.closed => RS.closed
                                            | _ => RS.closing) },
                  [TEv.pongTimeout])
          else
            some ({ s with timers := s.timers.filter (fun u => u.id != id),
                           crashed := true }, [TEv.pongTimeout])
        | .reconnectT =>
          some (connectFn cfg { s with timers := s.timers.filter (fun u => u.id != id) })

/-- The state right after the constructor with `autoConnect` (the repo's
usage): fields initialised (part_000 34–38) and `connect()` run once. -/
def initPS (cfg : Cfg) : PS :=
  (connectFn cfg
    { shouldClose := false, retries := 0, socketRef := false, wsState := none,
      pinger := none, awaitPong := none, timers := [], nextId := 0,
      crashed := false }).1

/-- Run a sequence of environment events, failing if any is not enabled. -/
def runSock (cfg : Cfg) : PS → List SStep → Option PS
  | s, [] => some s
  | s, e :: rest =>
    match step cfg s e with
    | some (s2, _) => runSock cfg s2 rest
    | none => none

/-- The pong discipline: a pong frame answers a ping, i.e. it arrives
while the pong-deadline timer stored in `awaitPong` is still armed. -/
def discipline (s : PS) : Bool :=
  match s.awaitPong with
  | some id => s.timers.any (fun t => t.id == id && t.kind == TKind.awaitPongT)
  | none => false

/-- `step`, restricted to runs in which every pong answers a pending
ping. -/
def stepD (cfg : Cfg) (s : PS) (e : SStep) : Option (PS × List TEv) :=
  match e with
  | .pongEv => if discipline s then step cfg s .pongEv else none
  | _ => step cfg s e

/-- Disciplined run. -/
def runDisc (cfg : Cfg) : PS → List SStep → Option PS
  | s, [] => some s
  | s, e :: rest =>
    match stepD cfg s e with
    | some (s2, _) => runDisc cfg s2 rest
    | none => none

/-- Is a timer of the given kind armed? -/
def hasKind (s : PS) (k : TKind) : Bool :=
  s.timers.any (fun t => t.kind == k)

/-- The heartbeat invariant maintained along disciplined runs: at most one
timer armed at a time; any armed heartbeat timer's id is the one stored in
its field; a connecting socket has no armed timer; a pending reconnect
implies the socket is closed. -/
def Inv (s : PS) : Prop :=
  s.timers.length ≤ 1
  ∧ (∀ t ∈ s.timers, t.kind = TKind.awaitPongT → s.awaitPong = some t.id)
  ∧ (∀ t ∈ s.timers, t.kind = TKind.pingerT → s.pinger = some t.id)
  ∧ (s.wsState = some RS.connecting → s.timers = [])
  ∧ (∀ t ∈ s.timers, t.kind = TKind.reconnectT → s.wsState = some RS.closed)

/-! ## Concrete fixtures used by witnesses and counterexamples -/

/-- Default transport configuration (part_000 13–19 defaults;
`maxRetries = none` is `Infinity`). -/
def cfg0 : Cfg := ⟨10000, 5000, 10000, none⟩

/-- A configuration with a retry ceiling of zero. -/
def cfg1 : Cfg := ⟨10000, 5000, 10000, some 0⟩

/-- A transport with an open, ready socket and no armed timers. -/
def psOpen : PS :=
  ⟨false, 0, true, some RS.opened, none, none, [], 0, false⟩

/-- `psOpen` after `close()` set the intentional-close flag. -/
def psSC : PS := { psOpen with shouldClose := true }

/-- The state after an unintentional close event hits `psOpen`. -/
def c2res : PS := (onCloseFn cfg0 { psOpen with wsState := some RS.closed }).1

/-- The state after a close event hits `psSC` (intentional close). -/
def c2scRes : PS := (onCloseFn cfg0 { psSC with wsState := some RS.closed }).1

/-- The transport state right after `connect` + socket open: the first
ping armed the pong-deadline timer (id 0). -/
def c8wS : PS :=
  ⟨false, 0, true, some RS.opened, none, some 0, [⟨0, TKind.awaitPongT, 5000⟩], 1, false⟩

/-- Open; pong; an unsolicited duplicate pong; then the orphaned ping
timer (id 1) fires. -/
def c8Trace : List SStep := [SStep.openEv, SStep.pongEv, SStep.pongEv, SStep.fire 1]

/-- A session whose `prevState` is already `playing`. -/
def sessPlaying : JSVal := .obj [(("prevState"), .str ("playing"))]

/-- A session whose `prevState` is `paused`. -/
def sessPaused : JSVal := .obj [(("prevState"), .str ("paused"))]

/-- A session whose `prevState` is already `stopped`. -/
def sessStopped : JSVal := .obj [(("prevState"), .str ("stopped"))]

/-- A notification carrying `sessionKey = "5"`. -/
def notif5 : JSVal := .obj [(("sessionKey"), .str ("5"))]

/-- A filter whose dot-path steps through a missing field: resolving
`Media.part` on a session without `Media` reads a property of
`undefined` and throws. -/
def fsThrow : List Filter := [⟨("Media.part"), .str ("x"), .vstr, .eq, 0⟩]

/-- A single string-equality filter on `Player.state`. -/
def c3wFilters : List Filter := [⟨("Player.state"), .str ("playing"), .vstr, .eq, 0⟩]

/-- A session on which `c3wFilters` matches. -/
def c3wSession : JSVal :=
  .obj [(("Player"), .obj [(("state"), .str ("playing"))])]

/-- A `neq` filter over the path `a.b`. -/
def c3ceFilters : List Filter := [⟨("a.b"), .str ("x"), .vstr, .neq, 0⟩]

/-- The empty session object. -/
def c3ceSession : JSVal := .obj []

/-- A `num`-typed equality filter with numeric literal `5`. -/
def f6 : Filter := ⟨("x"), .str ("5"), .vnum, .eq, 0⟩

/-- A string-equality filter that does not match `sess9`. -/
def filters9 : List Filter := [⟨("x"), .str ("nope"), .vstr, .eq, 5⟩]

/-- A session with a resolvable field `x` and `prevState = paused`. -/
def sess9 : JSVal :=
  .obj [(("x"), .str ("val")), (("prevState"), .str ("paused"))]

/-- `sess9` after the `prevState` update to `playing`. -/
def sess9After : JSVal :=
  .obj [(("x"), .str ("val")), (("prevState"), .str ("playing"))]

/-- Expected processor outcome for the C4 witness (no emission, no
mutation, no deletion). -/
def out4 : POut := ⟨[], false, [], sessPlaying⟩

/-- Expected processor outcome for the C9 witness: filters do not match,
yet `prevState` is updated. -/
def out9 : POut := ⟨[], false, [], sess9After⟩

/-- Expected processor outcome for the C5 witness: a `null` session is
skipped but its key is still deleted. -/
def out5 : POut := ⟨[], false, [JSVal.str ("5")], JSVal.null⟩

/-! ## Theorems -/

/-- `Except` monad: bind on a success. -/
@[simp] theorem exc_bind_ok {ε : Type u} {α β : Type v} (a : α) (f : α → Except ε β) :
    (Except.ok a >>= f : Except ε β) = f a := rfl

/-- `Except` monad: bind on a failure. -/
@[simp] theorem exc_bind_error {ε : Type u} {α β : Type v} (e : ε) (f : α → Except ε β) :
    ((Except.error e : Except ε α) >>= f : Except ε β) = Except.error e := rfl

/-- `Except` monad: `pure` is `ok`. -/
@[simp] theorem exc_pure_eq_ok {ε : Type u} {α : Type v} (a : α) :
    (pure a : Except ε α) = Except.ok a := rfl

/-- Claim C1 (code bug): on a frame whose payload fails `JSON.parse`, the
handler evaluates `return this.emit('error', err)`, and `emit` returns the
boolean `true` whenever an `error` listener is attached.  `onMessage` then
treats that `true` as the parsed payload: it is truthy, so a `message`
event carrying the boolean `true` is emitted after the `error` event —
the frame is not dropped as the claim (and the clear intent of the
early-return) says.  No `notification` or `playing` event follows, since
`true['NotificationContainer']` is `undefined`.  With no `error` listener
attached, `emit('error')` instead throws out of the handler and nothing at
all is emitted. -/
theorem c1_parse_failure_emits_message :
    onMessageFn none true = ([TEv.error, TEv.message (JSVal.bool true)], false)
    ∧ onMessageFn none false = ([], true) :=
  ⟨rfl, rfl⟩

/-- Claim C7: every `connect()` call post-increments the retry counter;
`reconnect-max-retries` is emitted exactly when the pre-increment counter
has reached the configured ceiling; and in either case the call still
proceeds to construct a fresh socket (the new socket is connecting and
`this.socket` is set). -/
theorem c7_connect_increments_and_proceeds (cfg : Cfg) (s : PS) :
    (connectFn cfg s).1.retries = s.retries + 1
    ∧ (TEv.reconnectMaxRetries ∈ (connectFn cfg s).2
        ↔ reachedMax cfg.maxRetries s.retries = true)
    ∧ (connectFn cfg s).1.wsState = some RS.connecting
    ∧ (connectFn cfg s).1.socketRef = true := by
  refine ⟨rfl, ?_, rfl, rfl⟩
  unfold connectFn
  cases h : reachedMax cfg.maxRetries s.retries <;> simp [h]

/-- Non-vacuity check for C7: with a retry ceiling of `0` and a counter of
`0`, the ceiling is reached and the signal is emitted. -/
theorem c7_connect_increments_and_proceeds_witness :
    TEv.reconnectMaxRetries ∈ (connectFn cfg1 psOpen).2 :=
  (c7_connect_increments_and_proceeds cfg1 psOpen).2.1.mpr rfl

/-- Claim C6: under a `num`-typed filter whose literal is numeric, a
session value coercing to `NaN` compares false for `eq`, `lt`, `lte`,
`gt`, `gte` and true for `neq`. -/
theorem c6_nan_comparisons (f : Filter) (v : JSVal) (n : Int)
    (hvt : f.valueType = VType.vnum)
    (hfv : jsToNumber f.value = some n)
    (hsv : jsToNumber v = none) :
    applyFilter f v = (match f.operator with | Op.neq => true | _ => false) := by
  unfold applyFilter
  rw [hvt]
  unfold coerceVals
  rw [hfv, hsv]
  cases f.operator <;>
    simp [applyOp, jsLooseEq, numEq, jsLt, jsLe, toPrimNum, jsToNumber]

/-- Witness for C6 at a concrete input: filter literal `"5"` coerces to
`5`, session value `"abc"` coerces to `NaN`, and the `eq` comparison is
false. -/
theorem c6_nan_comparisons_witness :
    jsToNumber f6.value = some 5
    ∧ jsToNumber (JSVal.str ("abc")) = none
    ∧ applyFilter f6 (JSVal.str ("abc")) = false :=
  ⟨rfl, rfl, c6_nan_comparisons f6 (JSVal.str ("abc")) 5 rfl rfl rfl⟩

/-- When the guard `session && session['prevState'] !== state` evaluates
false (falsy session, or stored `prevState` strictly equal to the new
state), the `then` body only performs the `stopped` deletion. -/
theorem processSession_skip (filters : List Filter) (state notif session sk : JSVal)
    (hcond : jsTruthy session = false
      ∨ ∃ pv, getProp session ("prevState") = Except.ok pv
          ∧ jsStrictEq pv state = true) :
    processSession filters state notif session sk =
      .ok ⟨[], false, (if jsStrictEq state (.str ("stopped")) then [sk] else []),
           session⟩ := by
  unfold processSession
  rcases hcond with hjt | ⟨pv, hp, heq⟩
  · simp [hjt]
  · cases hjt : jsTruthy session
    · simp [hjt]
    · simp [hjt, hp, heq]

/-- When the guard holds and the filter evaluation returns (rather than
throws), the body emits iff the filters matched, updates `prevState`
unconditionally, and performs the `stopped` deletion. -/
theorem processSession_update (filters : List Filter)
    (state notif session sk pv : JSVal) (b : Bool)
    (ht : jsTruthy session = true)
    (hp : getProp session ("prevState") = Except.ok pv)
    (hne : jsStrictEq pv state = false)
    (hm : matchesFilters filters session = Except.ok b) :
    processSession filters state notif session sk =
      .ok ⟨(if b then [(state, notif, session)] else []), false,
           (if jsStrictEq state (.str ("stopped")) then [sk] else []),
           setProp session ("prevState") state⟩ := by
  unfold processSession
  simp [ht, hp, hne, hm]

/-- Whenever the `then` body completes without throwing, it has not
warned and has deleted the session key exactly when the state is
`stopped`. -/
theorem processSession_ok (filters : List Filter) (state notif session sk : JSVal)
    (o : POut)
    (h : processSession filters state notif session sk = .ok o) :
    o.warned = false
    ∧ o.deleted = (if jsStrictEq state (.str ("stopped")) then [sk] else []) := by
  unfold processSession at h
  cases hjt : jsTruthy session <;> simp [hjt] at h
  · subst h
    exact ⟨rfl, rfl⟩
  · cases hgp : getProp session ("prevState") with
    | error e => simp [hgp] at h
    | ok pv =>
      simp [hgp] at h
      cases hse : jsStrictEq pv state <;> simp [hse] at h
      · cases hm : matchesFilters filters session with
        | error e => simp [hm] at h
        | ok b =>
          simp [hm] at h
          subst h
          exact ⟨rfl, rfl⟩
      · subst h
        exact ⟨rfl, rfl⟩

/-- Claim C4: when the fetched session's stored `prevState` is strictly
equal to the newly observed state, no downstream message is sent — for
any configured filter list, including ones that would match. -/
theorem c4_dedup_no_emission (filters : List Filter)
    (state notif session pv : JSVal) (out : POut)
    (hp : getProp session ("prevState") = Except.ok pv)
    (heq : jsStrictEq pv state = true)
    (hrun : handlePlaying filters state notif (Except.ok session) = Except.ok out) :
    out.sent = [] := by
  unfold handlePlaying at hrun
  cases hk : getProp notif ("sessionKey") with
  | error e => simp [hk] at hrun
  | ok sk =>
    simp [hk,
      processSession_skip filters state notif session sk (Or.inr ⟨pv, hp, heq⟩)]
      at hrun
    rw [← hrun]

/-- Witness for C4: state `playing` arriving while `prevState` is already
`playing` produces no downstream message. -/
theorem c4_dedup_no_emission_witness :
    getProp sessPlaying ("prevState") = Except.ok (JSVal.str ("playing"))
    ∧ handlePlaying [] (JSVal.str ("playing")) notif5 (Except.ok sessPlaying)
        = Except.ok out4
    ∧ out4.sent = [] :=
  ⟨rfl, rfl,
    c4_dedup_no_emission [] (JSVal.str ("playing")) notif5 sessPlaying
      (JSVal.str ("playing")) out4 rfl rfl rfl⟩

/-- Claim C9 (amended): when the session exists, its `prevState` differs
from the new state, and the filter evaluation returns rather than throws,
`prevState` is updated to the new state regardless of the filter verdict
and of whether a message was sent. -/
theorem c9_prevstate_update (filters : List Filter)
    (state notif session pv : JSVal) (b : Bool) (out : POut)
    (ht : jsTruthy session = true)
    (hp : getProp session ("prevState") = Except.ok pv)
    (hne : jsStrictEq pv state = false)
    (hm : matchesFilters filters session = Except.ok b)
    (hrun : handlePlaying filters state notif (Except.ok session) = Except.ok out) :
    out.sessionAfter = setProp session ("prevState") state := by
  unfold handlePlaying at hrun
  cases hk : getProp notif ("sessionKey") with
  | error e => simp [hk] at hrun
  | ok sk =>
    simp [hk,
      processSession_update filters state notif session sk pv b ht hp hne hm]
      at hrun
    rw [← hrun]

/-- Witness for C9: the filter does not match (`b = false`), no message is
sent, and `prevState` is still updated from `paused` to `playing`. -/
theorem c9_prevstate_update_witness :
    matchesFilters filters9 sess9 = Except.ok false
    ∧ handlePlaying filters9 (JSVal.str ("playing")) notif5 (Except.ok sess9)
        = Except.ok out9
    ∧ out9.sessionAfter = setProp sess9 ("prevState") (JSVal.str ("playing")) :=
  ⟨rfl, rfl,
    c9_prevstate_update filters9 (JSVal.str ("playing")) notif5 sess9
      (JSVal.str ("paused")) false out9 rfl rfl rfl rfl rfl⟩

/-- Counterexample to C9 as stated: the session exists (`prevState` is
`paused`, the new state is `playing`), but the filter path `Media.part`
steps through `undefined` and throws; the `.catch` only warns and the
processor leaves `prevState` at `paused` — the update the claim promises
does not happen. -/
theorem c9_prevstate_counterexample :
    jsTruthy sessPaused = true
    ∧ getProp sessPaused ("prevState") = Except.ok (JSVal.str ("paused"))
    ∧ jsStrictEq (JSVal.str ("paused")) (JSVal.str ("playing")) = false
    ∧ handlePlaying fsThrow (JSVal.str ("playing")) notif5 (Except.ok sessPaused)
        = Except.ok ⟨[], true, [], sessPaused⟩
    ∧ setProp sessPaused ("prevState") (JSVal.str ("playing"))
        = JSVal.obj [(("prevState"), JSVal.str ("playing"))] :=
  ⟨rfl, rfl, rfl, rfl, rfl⟩

/-- Claim C5 (amended): for a `stopped` event whose session fetch succeeds
and whose processing completes without the warning path (i.e. the filter
evaluation does not throw), the session key is deleted from the store,
whatever the filters said and whether or not a message was sent. -/
theorem c5_stopped_delete (filters : List Filter)
    (state notif session sk : JSVal) (out : POut)
    (hst : jsStrictEq state (.str ("stopped")) = true)
    (hsk : getProp notif ("sessionKey") = Except.ok sk)
    (hrun : handlePlaying filters state notif (Except.ok session) = Except.ok out)
    (hw : out.warned = false) :
    out.deleted = [sk] := by
  unfold handlePlaying at hrun
  simp [hsk] at hrun
  cases hps : processSession filters state notif session sk with
  | error e =>
    simp [hps] at hrun
    rw [← hrun] at hw
    simp at hw
  | ok o =>
    simp [hps] at hrun
    have hshape := processSession_ok filters state notif session sk o hps
    rw [← hrun, hshape.2, hst]
    rfl

/-- Witness for C5: a `stopped` event for a session that resolves to
`null` still deletes the key. -/
theorem c5_stopped_delete_witness :
    handlePlaying [] (JSVal.str ("stopped")) notif5 (Except.ok JSVal.null)
      = Except.ok out5
    ∧ out5.deleted = [JSVal.str ("5")] :=
  ⟨rfl,
    c5_stopped_delete [] (JSVal.str ("stopped")) notif5 JSVal.null
      (JSVal.str ("5")) out5 rfl rfl rfl rfl⟩

/-- Counterexample to C5 as stated: a `stopped` event whose session-store
fetch rejects only produces the warning — `sessions.delete` is never
reached, so the session is not removed even though the state is
`stopped`. -/
theorem c5_stopped_delete_counterexample :
    jsStrictEq (JSVal.str ("stopped")) (JSVal.str ("stopped")) = true
    ∧ handlePlaying [] (JSVal.str ("stopped")) notif5
        (Except.error ("network failure"))
        = Except.ok ⟨[], true, [], JSVal.undef⟩ :=
  ⟨rfl, rfl⟩

/-- Claim C10 (amended): for a `stopped` event whose fetch succeeds, if the
dedup guard is skipped — the session resolved to a falsy value such as
`null`, or its `prevState` already equals the state — the deletion always
runs: it is unconditional on session existence and on the dedup check. -/
theorem c10_unconditional_delete (filters : List Filter)
    (state notif session sk : JSVal)
    (hst : jsStrictEq state (.str ("stopped")) = true)
    (hsk : getProp notif ("sessionKey") = Except.ok sk)
    (hcase : jsTruthy session = false
      ∨ ∃ pv, getProp session ("prevState") = Except.ok pv
          ∧ jsStrictEq pv state = true) :
    ∃ out, handlePlaying filters state notif (Except.ok session) = Except.ok out
      ∧ out.deleted = [sk] ∧ out.warned = false := by
  refine ⟨⟨[], false, [sk], session⟩, ?_, rfl, rfl⟩
  unfold handlePlaying
  simp [hsk, processSession_skip filters state notif session sk hcase, hst]

/-- Witness for C10: a `stopped` event for a session whose `prevState` is
already `stopped` (dedup guard skipped) still deletes the key. -/
theorem c10_unconditional_delete_witness :
    ∃ out, handlePlaying [] (JSVal.str ("stopped")) notif5 (Except.ok sessStopped)
        = Except.ok out
      ∧ out.deleted = [JSVal.str ("5")] ∧ out.warned = false :=
  c10_unconditional_delete [] (JSVal.str ("stopped")) notif5 sessStopped
    (JSVal.str ("5")) rfl rfl
    (Or.inr ⟨JSVal.str ("stopped"), rfl, rfl⟩)

/-- Counterexample to C10 as stated: the fetch succeeds (session exists
with `prevState = playing`), the state is `stopped`, yet the filter path
`Media.part` throws inside the guard body, the `.catch` warns, and
`sessions.delete` is never invoked. -/
theorem c10_unconditional_delete_counterexample :
    jsStrictEq (JSVal.str ("stopped")) (JSVal.str ("stopped")) = true
    ∧ getProp notif5 ("sessionKey") = Except.ok (JSVal.str ("5"))
    ∧ handlePlaying fsThrow (JSVal.str ("stopped")) notif5 (Except.ok sessPlaying)
        = Except.ok ⟨[], true, [], sessPlaying⟩ :=
  ⟨rfl, rfl, rfl⟩

/-- A property read that succeeds agrees with the specification's total
resolution step. -/
theorem getProp_ok_spec (v : JSVal) (k : String) (w : JSVal)
    (h : getProp v k = Except.ok w) : getPropSpec v k = w := by
  unfold getPropSpec
  rw [h]

/-- A dot-path walk that does not throw agrees with the specification's
total resolution. -/
theorem resolvePath_ok_spec (parts : List String) :
    ∀ (s v : JSVal), resolvePath s parts = Except.ok v →
      resolvePathSpec s parts = v := by
  induction parts with
  | nil =>
    intro s v h
    unfold resolvePath at h
    simp at h
    simpa [resolvePathSpec] using h
  | cons k rest ih =>
    intro s v h
    unfold resolvePath at h
    rw [List.foldlM_cons] at h
    cases hg : getProp s k with
    | error e => rw [hg] at h; simp at h
    | ok w =>
      rw [hg] at h
      simp at h
      unfold resolvePathSpec
      rw [List.foldl_cons, getProp_ok_spec s k w hg]
      exact ih w v h

/-- A filter evaluation that returns agrees with the comparison computed
over specification-style resolution. -/
theorem evalFilter_ok_spec (s : JSVal) (f : Filter) (c : Bool)
    (h : evalFilter s f = Except.ok c) :
    c = applyFilter f (resolvePathSpec s (splitOnDot f.key)) := by
  unfold evalFilter at h
  cases hr : resolvePath s (splitOnDot f.key) with
  | error e => rw [hr] at h; simp at h
  | ok w =>
    rw [hr] at h
    simp at h
    rw [resolvePath_ok_spec (splitOnDot f.key) s w hr, ← h]

/-- The `forEach` conjunction fold, when it returns, computes the AND of
all individual comparisons (over spec-style resolution). -/
theorem matchesFilters_ok_all (l : List Filter) :
    ∀ (s : JSVal) (b r : Bool),
      l.foldlM (fun m f => do
          let c ← evalFilter s f
          pure (m && c)) b = Except.ok r →
      r = (b && l.all (fun f => applyFilter f (resolvePathSpec s (splitOnDot f.key)))) := by
  induction l with
  | nil =>
    intro s b r h
    simp at h
    simp [← h]
  | cons f rest ih =>
    intro s b r h
    rw [List.foldlM_cons] at h
    cases he : evalFilter s f with
    | error e => simp [he] at h
    | ok c =>
      simp [he] at h
      have hr := ih s (b && c) r h
      rw [evalFilter_ok_spec s f c he] at hr
      simp [hr, List.all_cons, Bool.and_assoc]

/-- Claim C3 (amended): whenever `matchesFilters` returns (no filter path
throws), its result is exactly the conjunction, over the filters in
ascending `idx` order, of the operator applied with the filter's literal
value on the left and the session's path-resolved value on the right —
and over the empty filter list it returns `true` for any session.  (As
stated the claim fails: when a dot-path steps through `undefined`/`null`
the code throws instead of returning the conjunction, see the
counterexample.) -/
theorem c3_matches_conjunction (config : List Filter) (session : JSVal) :
    (∀ r : Bool, matchesNode config session = Except.ok r →
       r = matchesSpec config session)
    ∧ matchesNode ([] : List Filter) session = Except.ok true := by
  constructor
  · intro r h
    unfold matchesNode matchesFilters at h
    have := matchesFilters_ok_all (sortFilters config) session true r h
    simpa [matchesSpec] using this
  · rfl

/-- Witness for C3 at a concrete input: a `Player.state` string filter on
a session where the path resolves; `matchesFilters` returns `true`, and
that is the claimed conjunction. -/
theorem c3_matches_conjunction_witness :
    matchesNode c3wFilters c3wSession = Except.ok true
    ∧ true = matchesSpec c3wFilters c3wSession :=
  ⟨rfl, (c3_matches_conjunction c3wFilters c3wSession).1 true rfl⟩

/-- Counterexample to C3 as stated: on the empty session object and a
single `neq` filter over the path `a.b`, the claimed conjunction is `true`
(the resolved value is `undefined`, `String(undefined) = "undefined" ≠
"x"`), but `matchesFilters` does not return it — the walk reads a property
of `undefined` and throws. -/
theorem c3_matches_counterexample :
    matchesNode c3ceFilters c3ceSession = Except.error ()
    ∧ matchesSpec c3ceFilters c3ceSession = true :=
  ⟨rfl, rfl⟩

/-- Clearing a field's timer only removes timers. -/
theorem clearField_subset (l : List Timer) (o : Option Nat) :
    ∀ t ∈ clearField l o, t ∈ l := by
  cases o with
  | none => intro t ht; exact ht
  | some id =>
    intro t ht
    unfold clearField at ht
    exact (List.mem_filter.mp ht).1

/-- `ping()` leaves the close flag alone and arms at most a pong-deadline
timer. -/
theorem pingFn_intent (cfg : Cfg) (s : PS) :
    (pingFn cfg s).1.shouldClose = s.shouldClose
    ∧ ∀ t ∈ (pingFn cfg s).1.timers, t.kind = TKind.reconnectT → t ∈ s.timers := by
  unfold pingFn
  split
  · refine ⟨rfl, ?_⟩
    intro t ht hk
    simp at ht
    rcases ht with ht | ht
    · exact ht
    · rw [ht] at hk
      cases hk
  · exact ⟨rfl, fun t ht _ => ht⟩

/-- `onOpen` leaves the close flag alone and arms at most a pong-deadline
timer. -/
theorem onOpenFn_intent (cfg : Cfg) (s : PS) :
    (onOpenFn cfg s).1.shouldClose = s.shouldClose
    ∧ ∀ t ∈ (onOpenFn cfg s).1.timers, t.kind = TKind.reconnectT → t ∈ s.timers := by
  unfold onOpenFn
  exact pingFn_intent cfg { s with retries := 0 }

/-- `onPong` leaves the close flag alone and arms only a ping timer. -/
theorem onPongFn_intent (cfg : Cfg) (s : PS) :
    (onPongFn cfg s).1.shouldClose = s.shouldClose
    ∧ ∀ t ∈ (onPongFn cfg s).1.timers, t.kind = TKind.reconnectT → t ∈ s.timers := by
  unfold onPongFn
  cases ha : s.awaitPong with
  | none =>
    refine ⟨rfl, ?_⟩
    intro t ht hk
    simp at ht
    rcases ht with ht | ht
    · exact ht
    · rw [ht] at hk
      cases hk
  | some id =>
    refine ⟨rfl, ?_⟩
    intro t ht hk
    simp at ht
    rcases ht with ⟨ht, _⟩ | ht
    · exact ht
    · rw [ht] at hk
      cases hk

/-- `onClose` leaves the close flag alone; on an intentional close it only
removes timers. -/
theorem onCloseFn_intent (cfg : Cfg) (s : PS) :
    (onCloseFn cfg s).1.shouldClose = s.shouldClose
    ∧ (s.shouldClose = true → ∀ t ∈ (onCloseFn cfg s).1.timers, t ∈ s.timers) := by
  unfold onCloseFn
  cases hsc : s.shouldClose
  · constructor
    · simp
    · intro habs
      simp at habs
  · constructor
    · simp
    · intro _ t ht
      simp at ht
      exact clearField_subset _ _ t (clearField_subset _ _ t ht)

/-- `onClose` on an unintentional close schedules exactly one reconnect
timer, with the configured reconnect interval, besides the (cleared)
previously armed timers. -/
theorem onCloseFn_unintentional (cfg : Cfg) (s : PS) (hsc : s.shouldClose = false) :
    ∃ pre, (onCloseFn cfg s).1.timers
        = pre ++ [⟨s.nextId, TKind.reconnectT, cfg.reconnectInterval⟩]
      ∧ ∀ t ∈ pre, t ∈ s.timers := by
  unfold onCloseFn
  simp [hsc]
  intro t ht
  exact clearField_subset _ _ t (clearField_subset _ _ t ht)

/-- A close event always routes through `onClose` on the state whose
socket just moved to `closed`. -/
theorem step_closeEv_dest (cfg : Cfg) (s s2 : PS) (evs : List TEv)
    (h : step cfg s SStep.closeEv = some (s2, evs)) :
    s2 = (onCloseFn cfg { s with wsState := some RS.closed }).1 := by
  simp only [step] at h
  split at h
  · simp at h
  · cases hws : s.wsState with
    | none => rw [hws] at h; simp at h
    | some rs =>
      cases rs <;> rw [hws] at h <;> simp at h <;> rw [h]

/-- Any enabled step taken after `close()` set the intentional-close flag
keeps the flag set and schedules no new reconnect timer. -/
theorem step_intentional (cfg : Cfg) (s : PS) (e : SStep) (s2 : PS) (evs : List TEv)
    (h : step cfg s e = some (s2, evs)) (hsc : s.shouldClose = true) :
    s2.shouldClose = true
    ∧ ∀ t ∈ s2.timers, t.kind = TKind.reconnectT → t ∈ s.timers := by
  cases e with
  | openEv =>
    simp only [step] at h
    split at h
    · simp at h
    cases hws : s.wsState with
    | none => rw [hws] at h; simp at h
    | some rs =>
      cases rs <;> rw [hws] at h <;> simp at h
      case connecting =>
        have h1 : s2 = (onOpenFn cfg { s with wsState := some RS.opened }).1 := by
          rw [h]
        have hi := onOpenFn_intent cfg { s with wsState := some RS.opened }
        rw [h1]
        exact ⟨hi.1.trans hsc, hi.2⟩
  | closeEv =>
    simp only [step] at h
    split at h
    · simp at h
    cases hws : s.wsState with
    | none => rw [hws] at h; simp at h
    | some rs =>
      cases rs <;> rw [hws] at h <;> simp at h
      all_goals
        have h1 : s2 = (onCloseFn cfg { s with wsState := some RS.closed }).1 := by
          rw [h]
      all_goals
        have hi := onCloseFn_intent cfg { s with wsState := some RS.closed }
        rw [h1]
        exact ⟨hi.1.trans hsc, fun t ht _ => hi.2 hsc t ht⟩
  | pongEv =>
    simp only [step] at h
    split at h
    · simp at h
    cases hws : s.wsState with
    | none => rw [hws] at h; simp at h
    | some rs =>
      cases rs <;> rw [hws] at h <;> simp at h
      case opened =>
        have h1 : s2 = (onPongFn cfg s).1 := by
          rw [h]
        have hi := onPongFn_intent cfg s
        rw [h1]
        exact ⟨hi.1.trans hsc, hi.2⟩
  | pingEv =>
    simp only [step] at h
    split at h
    · simp at h
    cases hws : s.wsState with
    | none => rw [hws] at h; simp at h
    | some rs =>
      cases rs <;> rw [hws] at h <;> simp at h
      case opened =>
        rw [← h.1]
        exact ⟨hsc, fun t ht _ => ht⟩
  | userClose =>
    simp only [step] at h
    split at h
    · simp at h
    simp at h
    unfold closeFn at h
    split at h <;> simp at h
    · rw [← h.1]
      exact ⟨rfl, fun t ht _ => ht⟩
    · rw [← h.1]
      exact ⟨hsc, fun t ht _ => ht⟩
  | fire id =>
    simp only [step] at h
    split at h
    · simp at h
    cases hf : s.timers.find? (fun t => t.id == id) with
    | none => rw [hf] at h; simp at h
    | some tm =>
      rw [hf] at h
      dsimp only at h
      cases hk : tm.kind <;> rw [hk] at h <;> simp at h
      case pingerT =>
        have h1 : s2 = (pingFn cfg
            { s with timers := s.timers.filter (fun u => u.id != id) }).1 := by
          rw [h]
        have hi := pingFn_intent cfg
          { s with timers := s.timers.filter (fun u => u.id != id) }
        rw [h1]
        refine ⟨hi.1.trans hsc, ?_⟩
        intro t ht hkk
        exact (List.mem_filter.mp (hi.2 t ht hkk)).1
      case awaitPongT =>
        split at h <;> simp at h <;> rw [← h.1]
        · exact ⟨hsc, fun t ht _ => (List.mem_filter.mp ht).1⟩
        · exact ⟨hsc, fun t ht _ => (List.mem_filter.mp ht).1⟩
      case reconnectT =>
        have h1 : s2 = (connectFn cfg
            { s with timers := s.timers.filter (fun u => u.id != id) }).1 := by
          rw [h]
        rw [h1]
        exact ⟨hsc, fun t ht _ => (List.mem_filter.mp ht).1⟩

/-- Along any run from a state with the intentional-close flag set, the
flag stays set and no new reconnect timer ever appears. -/
theorem runSock_intentional (cfg : Cfg) (l : List SStep) :
    ∀ (s s2 : PS), s.shouldClose = true → runSock cfg s l = some s2 →
      s2.shouldClose = true
      ∧ ∀ t ∈ s2.timers, t.kind = TKind.reconnectT → t ∈ s.timers := by
  induction l with
  | nil =>
    intro s s2 hsc h
    unfold runSock at h
    simp at h
    rw [← h]
    exact ⟨hsc, fun t ht _ => ht⟩
  | cons e rest ih =>
    intro s s2 hsc h
    unfold runSock at h
    cases hst : step cfg s e with
    | none => rw [hst] at h; simp at h
    | some p =>
      obtain ⟨s1, evs⟩ := p
      rw [hst] at h
      have hstep := step_intentional cfg s e s1 evs hst hsc
      have hrest := ih s1 s2 hstep.1 h
      exact ⟨hrest.1, fun t ht hkk => hstep.2 t (hrest.2 t ht hkk) hkk⟩

/-- Claim C2: a close event on a transport whose intentional-close flag is
unset schedules exactly one reconnect timer, firing after the configured
reconnect interval; once `close()` has set the flag, the flag persists and
no later step — in particular no later close event — ever schedules a
reconnect. -/
theorem c2_close_reconnect_policy (cfg : Cfg) (s : PS) :
    (∀ s2 evs, step cfg s SStep.closeEv = some (s2, evs) → s.shouldClose = false →
       ∃ pre, s2.timers = pre ++ [⟨s.nextId, TKind.reconnectT, cfg.reconnectInterval⟩]
         ∧ ∀ t ∈ pre, t ∈ s.timers)
    ∧ (∀ s2 evs, step cfg s SStep.closeEv = some (s2, evs) → s.shouldClose = true →
       ∀ t ∈ s2.timers, t ∈ s.timers)
    ∧ (∀ l s2, s.shouldClose = true → runSock cfg s l = some s2 →
       s2.shouldClose = true
       ∧ ∀ t ∈ s2.timers, t.kind = TKind.reconnectT → t ∈ s.timers) := by
  refine ⟨?_, ?_, fun l s2 hsc h => runSock_intentional cfg l s s2 hsc h⟩
  · intro s2 evs h hsc
    rw [step_closeEv_dest cfg s s2 evs h]
    exact onCloseFn_unintentional cfg { s with wsState := some RS.closed } hsc
  · intro s2 evs h hsc
    rw [step_closeEv_dest cfg s s2 evs h]
    exact fun t ht =>
      (onCloseFn_intent cfg { s with wsState := some RS.closed }).2 hsc t ht

/-- Witness for C2: an unintentional close of the open `psOpen` transport
schedules exactly the one reconnect timer with the default 10000 ms
interval, and an intentional close (`psSC`) followed by the close event
leaves the flag set with no reconnect timer ever scheduled. -/
theorem c2_close_reconnect_policy_witness :
    (∃ pre, c2res.timers = pre ++ [⟨psOpen.nextId, TKind.reconnectT,
        cfg0.reconnectInterval⟩] ∧ ∀ t ∈ pre, t ∈ psOpen.timers)
    ∧ (c2scRes.shouldClose = true
       ∧ ∀ t ∈ c2scRes.timers, t.kind = TKind.reconnectT → t ∈ psSC.timers) :=
  ⟨(c2_close_reconnect_policy cfg0 psOpen).1 c2res [] rfl rfl,
   (c2_close_reconnect_policy cfg0 psSC).2.2 [SStep.closeEv] c2scRes rfl rfl⟩

/-- A list of length at most one containing `t` is exactly `[t]`. -/
theorem length_le_one_eq {α : Type u} {l : List α} {t : α}
    (hlen : l.length ≤ 1) (ht : t ∈ l) : l = [t] := by
  cases l with
  | nil => cases ht
  | cons a rest =>
    cases rest with
    | nil =>
      simp at ht
      rw [ht]
    | cons b rest2 => simp at hlen

/-- A state with no armed timer satisfies the heartbeat invariant. -/
theorem inv_of_timers_nil (s : PS) (h : s.timers = []) : Inv s := by
  refine ⟨?_, ?_, ?_, ?_, ?_⟩ <;> simp [h]

/-- A closed socket whose only armed timer is a reconnect satisfies the
heartbeat invariant. -/
theorem inv_of_single_reconnect (s : PS) (t : Timer) (ht : s.timers = [t])
    (hk : t.kind = TKind.reconnectT) (hws : s.wsState = some RS.closed) :
    Inv s := by
  refine ⟨?_, ?_, ?_, ?_, ?_⟩
  · rw [ht]; simp
  · intro u hu hku
    rw [ht] at hu
    simp at hu
    rw [hu, hk] at hku
    simp at hku
  · intro u hu hku
    rw [ht] at hu
    simp at hu
    rw [hu, hk] at hku
    simp at hku
  · intro hcw
    rw [hws] at hcw
    simp at hcw
  · intro u hu _
    exact hws

/-- A ready transport has an open socket. -/
theorem isReady_wsState (s : PS) (h : isReady s = true) :
    s.wsState = some RS.opened := by
  unfold isReady at h
  cases hws : s.wsState with
  | none => rw [hws] at h; simp at h
  | some rs =>
    cases rs
    case opened => rfl
    all_goals rw [hws] at h; simp at h

/-- Under the invariant, clearing both heartbeat fields empties the timer
list, provided no reconnect timer is armed. -/
theorem inv_cleared_nil (s : PS) (hinv : Inv s)
    (hnr : ∀ t ∈ s.timers, t.kind ≠ TKind.reconnectT) :
    clearField (clearField s.timers s.pinger) s.awaitPong = [] := by
  obtain ⟨hlen, hA, hP, _, _⟩ := hinv
  cases hl : s.timers with
  | nil =>
    cases s.pinger <;> cases s.awaitPong <;> simp [clearField]
  | cons t rest =>
    have htm : t ∈ s.timers := by rw [hl]; exact List.mem_cons_self t rest
    have hteq : s.timers = [t] := length_le_one_eq hlen htm
    rw [hl] at hteq
    simp at hteq
    subst hteq
    cases hk : t.kind
    case pingerT =>
      have hp := hP t htm hk
      rw [hp]
      simp [clearField]
      cases s.awaitPong <;> simp [clearField]
    case awaitPongT =>
      have ha := hA t htm hk
      rw [ha]
      cases hpg : s.pinger with
      | none => simp [clearField]
      | some j =>
        by_cases hj : t.id = j
        · simp [clearField, hj]
        · simp [clearField, hj]
    case reconnectT => exact absurd hk (hnr t htm)

/-- `ping()` from a timer-free state preserves the heartbeat invariant:
either it does nothing or it arms exactly the pong-deadline timer, with
the field pointing at it, on an open socket. -/
theorem pingFn_inv (cfg : Cfg) (s : PS) (ht : s.timers = []) :
    Inv (pingFn cfg s).1 := by
  unfold pingFn
  cases hr : isReady s <;> simp [hr]
  · exact inv_of_timers_nil _ ht
  · have hws := isReady_wsState s hr
    refine ⟨?_, ?_, ?_, ?_, ?_⟩
    · simp [ht]
    · intro u hu hku
      simp [ht] at hu
      rw [hu]
    · intro u hu hku
      simp [ht] at hu
      rw [hu] at hku
      simp at hku
    · intro hcw
      rw [hws] at hcw
      simp at hcw
    · intro u hu hku
      simp [ht] at hu
      rw [hu] at hku
      simp at hku

/-- `onClose` preserves the heartbeat invariant whenever clearing the two
heartbeat fields empties the timer list and the socket just closed. -/
theorem onCloseFn_inv (cfg : Cfg) (s : PS)
    (hcl : clearField (clearField s.timers s.pinger) s.awaitPong = [])
    (hws : s.wsState = some RS.closed) : Inv (onCloseFn cfg s).1 := by
  unfold onCloseFn
  dsimp only
  cases hsc : s.shouldClose <;> simp [hsc]
  · exact inv_of_single_reconnect _
      ⟨s.nextId, TKind.reconnectT, cfg.reconnectInterval⟩
      (by simp [hcl]) rfl hws
  · exact inv_of_timers_nil _ (by simp [hcl])

/-- A disciplined pong — one answering a still-pending ping — leaves
exactly the fresh ping timer armed, preserving the invariant. -/
theorem onPong_inv (cfg : Cfg) (s : PS) (hinv : Inv s) (hd : discipline s = true)
    (hws : s.wsState = some RS.opened) : Inv (onPongFn cfg s).1 := by
  unfold discipline at hd
  cases haw : s.awaitPong with
  | none => rw [haw] at hd; simp at hd
  | some id =>
    rw [haw] at hd
    rw [List.any_eq_true] at hd
    obtain ⟨t, htm, hp⟩ := hd
    simp at hp
    obtain ⟨hid, hkA⟩ := hp
    have hteq := length_le_one_eq hinv.1 htm
    have hfe : s.timers.filter (fun u => u.id != id) = [] := by
      rw [hteq]
      simp [hid]
    unfold onPongFn
    rw [haw]
    dsimp only
    refine ⟨?_, ?_, ?_, ?_, ?_⟩
    · simp [hfe]
    · intro u hu hku
      simp [hfe] at hu
      rw [hu] at hku
      simp at hku
    · intro u hu hku
      simp [hfe] at hu
      rw [hu]
    · intro hcw
      rw [hws] at hcw
      simp at hcw
    · intro u hu hku
      simp [hfe] at hu
      rw [hu] at hku
      simp at hku

/-- One disciplined step preserves the heartbeat invariant. -/
theorem inv_stepD (cfg : Cfg) (s : PS) (e : SStep) (s2 : PS) (evs : List TEv)
    (hinv : Inv s) (h : stepD cfg s e = some (s2, evs)) : Inv s2 := by
  obtain ⟨hlen, hA, hP, hConn, hRec⟩ := hinv
  have hinv : Inv s := ⟨hlen, hA, hP, hConn, hRec⟩
  cases e with
  | openEv =>
    simp only [stepD, step] at h
    split at h
    · simp at h
    cases hws : s.wsState with
    | none => rw [hws] at h; simp at h
    | some rs =>
      cases rs <;> rw [hws] at h <;> simp at h
      case connecting =>
        have h1 : s2 = (onOpenFn cfg { s with wsState := some RS.opened }).1 := by
          rw [h]
        rw [h1]
        unfold onOpenFn
        exact pingFn_inv cfg _ (hConn hws)
  | closeEv =>
    simp only [stepD, step] at h
    split at h
    · simp at h
    cases hws : s.wsState with
    | none => rw [hws] at h; simp at h
    | some rs =>
      cases rs <;> rw [hws] at h <;> simp at h
      all_goals
        have h1 : s2 = (onCloseFn cfg { s with wsState := some RS.closed }).1 := by
          rw [h]
      all_goals
        rw [h1]
        refine onCloseFn_inv cfg _ ?_ rfl
        refine inv_cleared_nil s ⟨hlen, hA, hP, hConn, hRec⟩ ?_
        intro t htm hk
        have hcontra := hRec t htm hk
        rw [hws] at hcontra
        simp at hcontra
  | pongEv =>
    simp only [stepD] at h
    split at h
    case isTrue hd =>
      simp only [step] at h
      split at h
      · simp at h
      cases hws : s.wsState with
      | none => rw [hws] at h; simp at h
      | some rs =>
        cases rs <;> rw [hws] at h <;> simp at h
        case opened =>
          have h1 : s2 = (onPongFn cfg s).1 := by
            rw [h]
          rw [h1]
          exact onPong_inv cfg s hinv hd hws
    case isFalse => simp at h
  | pingEv =>
    simp only [stepD, step] at h
    split at h
    · simp at h
    cases hws : s.wsState with
    | none => rw [hws] at h; simp at h
    | some rs =>
      cases rs <;> rw [hws] at h <;> simp at h
      case opened =>
        rw [← h.1]
        exact hinv
  | userClose =>
    simp only [stepD, step] at h
    split at h
    · simp at h
    simp at h
    unfold closeFn at h
    split at h <;> simp at h <;> rw [← h.1]
    · refine ⟨hlen, hA, hP, ?_, ?_⟩
      · intro hcw
        exfalso
        cases hws : s.wsState with
        | none => rw [hws] at hcw; simp at hcw
        | some rs => cases rs <;> rw [hws] at hcw <;> simp at hcw
      · intro t htm hk
        have hcl := hRec t htm hk
        rw [hcl]
    · exact ⟨hlen, hA, hP, hConn, hRec⟩
  | fire id =>
    simp only [stepD, step] at h
    split at h
    · simp at h
    cases hf : s.timers.find? (fun t => t.id == id) with
    | none => rw [hf] at h; simp at h
    | some tm =>
      rw [hf] at h
      dsimp only at h
      have htm_mem := List.mem_of_find?_eq_some hf
      have htm_id := List.find?_some hf
      simp at htm_id
      have hteq : s.timers = [tm] := length_le_one_eq hlen htm_mem
      have hfe : s.timers.filter (fun u => u.id != id) = [] := by
        rw [hteq]
        simp [htm_id]
      cases hk : tm.kind <;> rw [hk] at h <;> simp at h
      case pingerT =>
        have h1 : s2 = (pingFn cfg
            { s with timers := s.timers.filter (fun u => u.id != id) }).1 := by
          rw [h]
        rw [h1]
        exact pingFn_inv cfg _ hfe
      case awaitPongT =>
        split at h <;> simp at h <;> rw [← h.1]
        · exact inv_of_timers_nil _ hfe
        · exact inv_of_timers_nil _ hfe
      case reconnectT =>
        have h1 : s2 = (connectFn cfg
            { s with timers := s.timers.filter (fun u => u.id != id) }).1 := by
          rw [h]
        rw [h1]
        exact inv_of_timers_nil _ hfe

/-- Disciplined runs preserve the heartbeat invariant. -/
theorem runDisc_inv (cfg : Cfg) (l : List SStep) :
    ∀ (s s2 : PS), Inv s → runDisc cfg s l = some s2 → Inv s2 := by
  induction l with
  | nil =>
    intro s s2 hi h
    unfold runDisc at h
    simp at h
    rw [← h]
    exact hi
  | cons e rest ih =>
    intro s s2 hi h
    unfold runDisc at h
    cases hst : stepD cfg s e with
    | none => rw [hst] at h; simp at h
    | some p =>
      obtain ⟨s1, evs⟩ := p
      rw [hst] at h
      exact ih s1 s2 (inv_stepD cfg s e s1 evs hi hst) h

/-- The freshly constructed transport satisfies the heartbeat invariant. -/
theorem inv_init (cfg : Cfg) : Inv (initPS cfg) := by
  refine ⟨?_, ?_, ?_, ?_, ?_⟩ <;> simp [initPS, connectFn]

/-- The heartbeat invariant forbids a ping timer and a pong-deadline
timer being armed at once. -/
theorem inv_not_both (s : PS) (hinv : Inv s) :
    ¬(hasKind s TKind.pingerT = true ∧ hasKind s TKind.awaitPongT = true) := by
  rintro ⟨hp, ha⟩
  unfold hasKind at hp ha
  rw [List.any_eq_true] at hp ha
  obtain ⟨t1, ht1, hk1⟩ := hp
  obtain ⟨t2, ht2, hk2⟩ := ha
  simp at hk1 hk2
  have e1 := length_le_one_eq hinv.1 ht1
  have e2 := length_le_one_eq hinv.1 ht2
  rw [e1] at e2
  simp at e2
  rw [e2, hk2] at hk1
  simp at hk1

/-- Under the invariant, a disciplined pong cancels the pending
pong-deadline timer and leaves exactly the fresh ping timer armed. -/
theorem inv_onPong_shape (cfg : Cfg) (s : PS) (hinv : Inv s)
    (hd : discipline s = true) :
    ((onPongFn cfg s).1.timers.map Timer.kind) = [TKind.pingerT] := by
  unfold discipline at hd
  cases haw : s.awaitPong with
  | none => rw [haw] at hd; simp at hd
  | some id =>
    rw [haw] at hd
    rw [List.any_eq_true] at hd
    obtain ⟨t, htm, hp⟩ := hd
    simp at hp
    have hteq := length_le_one_eq hinv.1 htm
    unfold onPongFn
    rw [haw]
    dsimp only
    simp [hteq, hp.1]

/-- Claim C8 (amended): in every transport state reachable by a run in
which each pong answers a still-pending ping, the ping timer and the
pong-deadline timer are never both armed, and a further pong received
while the pong-deadline timer is pending cancels that timer before the
new ping timer is armed, leaving exactly the ping timer.  (As stated the
claim fails: an unsolicited duplicate pong overwrites the `pinger` handle
without cancelling the previous ping timer, after which both timers can
be armed at once — see the counterexample.) -/
theorem c8_heartbeat_exclusion (cfg : Cfg) (l : List SStep) (s : PS)
    (h : runDisc cfg (initPS cfg) l = some s) :
    ¬(hasKind s TKind.pingerT = true ∧ hasKind s TKind.awaitPongT = true)
    ∧ (discipline s = true →
       ((onPongFn cfg s).1.timers.map Timer.kind) = [TKind.pingerT]) := by
  have hinv := runDisc_inv cfg l (initPS cfg) s (inv_init cfg) h
  exact ⟨inv_not_both s hinv, fun hd => inv_onPong_shape cfg s hinv hd⟩

/-- Witness for C8: after connect and open (the first ping armed the
pong-deadline timer), the state is reachable by a disciplined run, the
discipline predicate holds, and a pong leaves exactly the ping timer. -/
theorem c8_heartbeat_exclusion_witness :
    runDisc cfg0 (initPS cfg0) [SStep.openEv] = some c8wS
    ∧ ((onPongFn cfg0 c8wS).1.timers.map Timer.kind) = [TKind.pingerT] :=
  ⟨rfl, (c8_heartbeat_exclusion cfg0 [SStep.openEv] c8wS rfl).2 rfl⟩

/-- Counterexample to C8 as stated: run open, pong, then an unsolicited
duplicate pong (which re-arms `pinger`, orphaning the previous ping timer
— `onPong` cleared a stale `awaitPong` handle instead), then let the
orphaned ping timer (id 1) fire: `ping()` arms the pong-deadline timer
while the second ping timer is still armed, so a reachable state has both
the ping timer and the pong-deadline timer active at once. -/
theorem c8_both_timers_counterexample :
    (runSock cfg0 (initPS cfg0) c8Trace).map
      (fun s => hasKind s TKind.pingerT && hasKind s TKind.awaitPongT)
      = some true :=
  rfl

end PlexWs
